import Mathlib

/- Formal model of the parking-system repository.

The development shallowly embeds the Python modules that the verified
claims concern:

  * `fee_management/fee_manager.py`   — `FeeCalculator.calculate_fee`
  * `parking_space_management/space_manager.py`
      — `SpaceAllocationAlgorithm.allocate_space` / `release_space` /
        `reserve_space`
  * `user_management/user_manager.py`
      — `UserManager.register_user` / `login` / `deduct_balance`

Modelling conventions:

  * Python `float` money/amounts are modelled as exact rationals (`ℚ`);
    the repository only ever combines small decimal constants, so no
    claim here depends on binary floating-point artefacts.
  * `datetime.now()` is modelled by an explicit integer timestamp
    argument (`now : ℤ`) threaded into every state-changing operation;
    `DATETIME` columns are `ℤ`.
  * Database tables are lists of row structures; `fetch_one`/`fetchone`
    of a `SELECT ... WHERE` is `List.find?` of the row predicate, and
    `UPDATE ... WHERE` is a `List.map` that rewrites exactly the
    matching rows.  SQLite's `rows_affected` for an `UPDATE` is the
    number of rows matched.
  * Python-3 `round` (banker's rounding, round-half-to-even) is
    modelled exactly by `pyRound`; `round(x, 2)` by `pyRound2`.
  * `hashlib.sha256(...).hexdigest()` is modelled by a full executable
    SHA-256 (`sha256Hex`) over the UTF-8 bytes of the input string.
-/

namespace Parking

/-! ## Python rounding

`round` in Python 3 rounds to the nearest integer and breaks ties
towards the even neighbour.  `pyRound2` is `round(x, 2)`. -/

def pyRound (q : ℚ) : ℤ :=
  if q - (⌊q⌋ : ℚ) < 1/2 then ⌊q⌋
  else if 1/2 < q - (⌊q⌋ : ℚ) then ⌊q⌋ + 1
  else if ⌊q⌋ % 2 = 0 then ⌊q⌋ else ⌊q⌋ + 1

def pyRound2 (q : ℚ) : ℚ :=
  ((pyRound (q * 100) : ℤ) : ℚ) / 100

/-! ## SHA-256

Executable model of `hashlib.sha256(data).hexdigest()` over a byte
list, following FIPS 180-4.  32-bit words are `Nat` values kept below
`2^32`; the bitwise operations recurse on an explicit 32-bit fuel so
that the kernel can evaluate them. -/

def mod32 (n : Nat) : Nat := n % 4294967296

def xorAux : Nat → Nat → Nat → Nat
  | 0, _, _ => 0
  | k+1, a, b => (a + b) % 2 + 2 * xorAux k (a / 2) (b / 2)

def andAux : Nat → Nat → Nat → Nat
  | 0, _, _ => 0
  | k+1, a, b => a % 2 * (b % 2) + 2 * andAux k (a / 2) (b / 2)

def xor32 (a b : Nat) : Nat := xorAux 32 a b

def and32 (a b : Nat) : Nat := andAux 32 a b

def not32 (a : Nat) : Nat := 4294967295 - mod32 a

def rotr32 (n a : Nat) : Nat := a / 2 ^ n + a % 2 ^ n * 2 ^ (32 - n)

def bsig0 (x : Nat) : Nat := xor32 (xor32 (rotr32 2 x) (rotr32 13 x)) (rotr32 22 x)

def bsig1 (x : Nat) : Nat := xor32 (xor32 (rotr32 6 x) (rotr32 11 x)) (rotr32 25 x)

def ssig0 (x : Nat) : Nat := xor32 (xor32 (rotr32 7 x) (rotr32 18 x)) (x / 2 ^ 3)

def ssig1 (x : Nat) : Nat := xor32 (xor32 (rotr32 17 x) (rotr32 19 x)) (x / 2 ^ 10)

def chFn (e f g : Nat) : Nat := xor32 (and32 e f) (and32 (not32 e) g)

def majFn (a b c : Nat) : Nat := xor32 (xor32 (and32 a b) (and32 a c)) (and32 b c)

def shaK : List Nat :=
  [1116352408, 1899447441, 3049323471, 3921009573, 961987163, 1508970993,
   2453635748, 2870763221, 3624381080, 310598401, 607225278, 1426881987,
   1925078388, 2162078206, 2614888103, 3248222580, 3835390401, 4022224774,
   264347078, 604807628, 770255983, 1249150122, 1555081692, 1996064986,
   2554220882, 2821834349, 2952996808, 3210313671, 3336571891, 3584528711,
   113926993, 338241895, 666307205, 773529912, 1294757372, 1396182291,
   1695183700, 1986661051, 2177026350, 2456956037, 2730485921, 2820302411,
   3259730800, 3345764771, 3516065817, 3600352804, 4094571909, 275423344,
   430227734, 506948616, 659060556, 883997877, 958139571, 1322822218,
   1537002063, 1747873779, 1955562222, 2024104815, 2227730452, 2361852424,
   2428436474, 2756734187, 3204031479, 3329325298]

def shaH0 : List Nat :=
  [1779033703, 3144134277, 1013904242, 2773480762,
   1359893119, 2600822924, 528734635, 1541459225]

def beBytes : Nat → Nat → List Nat
  | 0, _ => []
  | k+1, n => beBytes k (n / 256) ++ [n % 256]

def toChunks (k : Nat) : Nat → List Nat → List (List Nat)
  | _, [] => []
  | 0, _ => []
  | fuel+1, l => l.take k :: toChunks k fuel (l.drop k)

def padBytes (msg : List Nat) : List Nat :=
  let len := msg.length
  let z := (120 - (len + 1) % 64) % 64
  msg ++ [0x80] ++ List.replicate z 0 ++ beBytes 8 (8 * len)

def wordOfBytes (bs : List Nat) : Nat := bs.foldl (fun acc b => acc * 256 + b) 0

def extendMsg : Nat → List Nat → List Nat
  | 0, ws => ws
  | k+1, ws =>
    let n := ws.length
    let w := mod32 (ssig1 (ws.getD (n-2) 0) + ws.getD (n-7) 0 +
                    ssig0 (ws.getD (n-15) 0) + ws.getD (n-16) 0)
    extendMsg k (ws ++ [w])

def compressStep (st : List Nat) (kw : Nat × Nat) : List Nat :=
  let a := st.getD 0 0
  let b := st.getD 1 0
  let c := st.getD 2 0
  let d := st.getD 3 0
  let e := st.getD 4 0
  let f := st.getD 5 0
  let g := st.getD 6 0
  let h := st.getD 7 0
  let t1 := mod32 (h + bsig1 e + chFn e f g + kw.1 + kw.2)
  let t2 := mod32 (bsig0 a + majFn a b c)
  [mod32 (t1 + t2), a, b, c, mod32 (d + t1), e, f, g]

def compressBlock (h : List Nat) (block : List Nat) : List Nat :=
  let ws := extendMsg 48 ((toChunks 4 block.length block).map wordOfBytes)
  let st := (shaK.zip ws).foldl compressStep h
  (h.zip st).map (fun p => mod32 (p.1 + p.2))

def sha256Bytes (msg : List Nat) : List Nat :=
  let padded := padBytes msg
  let final := (toChunks 64 padded.length padded).foldl compressBlock shaH0
  (final.map (beBytes 4)).flatten

def hexDigit (n : Nat) : Char := if n < 10 then Char.ofNat (48 + n) else Char.ofNat (87 + n)

def bytesToHex (bs : List Nat) : String :=
  String.mk ((bs.map (fun b => [hexDigit (b / 16), hexDigit (b % 16)])).flatten)

def utf8EncodeChar (c : Char) : List Nat :=
  let n := c.toNat
  if n < 0x80 then [n]
  else if n < 0x800 then [0xc0 + n / 64, 0x80 + n % 64]
  else if n < 0x10000 then [0xe0 + n / 4096, 0x80 + n / 64 % 64, 0x80 + n % 64]
  else [0xf0 + n / 262144, 0x80 + n / 4096 % 64, 0x80 + n / 64 % 64, 0x80 + n % 64]

def strBytes (s : String) : List Nat := (s.data.map utf8EncodeChar).flatten

def sha256Hex (s : String) : String := bytesToHex (sha256Bytes (strBytes s))

/-! ## Data model

Row structures for the tables the verified operations touch, mirroring
the columns that those operations read or write. -/

structure VehicleRow where
  id : ℤ
  plate_number : String
  vehicle_type : String
deriving DecidableEq

structure FeeRule where
  id : ℤ
  rule_name : String
  vehicle_type : String
  time_unit : String
  unit_price : ℚ
  free_duration : ℤ
  max_daily_fee : Option ℚ
  is_active : Bool
deriving DecidableEq

structure MemberLevel where
  level_name : String
  discount_rate : ℚ
deriving DecidableEq

structure UserRow where
  id : ℤ
  username : String
  password : String
  role : String
  real_name : Option String
  phone : Option String
  email : Option String
  is_member : Bool
  member_level : Option String
  member_expiry : Option ℤ
  balance : ℚ
  created_at : ℤ
  updated_at : ℤ
deriving DecidableEq

structure ParkingSpace where
  id : ℤ
  space_number : String
  floor : ℤ
  space_type : String
  status : String
  is_reserved : Bool
  reserved_user_id : Option ℤ
  updated_at : ℤ
deriving DecidableEq

structure DB where
  vehicles : List VehicleRow
  fee_rules : List FeeRule
  users : List UserRow
  member_levels : List MemberLevel
  next_user_id : ℤ
deriving DecidableEq

/-! ## Fee engine — `FeeCalculator.calculate_fee`

Faithful translation of `fee_management/fee_manager.py` lines 37-112.
The SQL lookups become `List.find?`; rule resolution falls back to the
default category `"小型车"`; the `hour`/`half_hour` conversion uses the
source's `round(payable / unit + 0.5)` (Python banker's rounding), the
daily-cap clamp uses Python truthiness of `max_daily_fee` (both `None`
and `0` skip the clamp), the discount multiplies afterwards, and the
result is `round(fee, 2)`. -/

def resolveRule (db : DB) (vehicle_type : String) : Option FeeRule :=
  match db.fee_rules.find? (fun r => r.vehicle_type == vehicle_type && r.is_active) with
  | some r => some r
  | none => db.fee_rules.find? (fun r => r.vehicle_type == "小型车" && r.is_active)

def rawFee (rule : FeeRule) (duration : ℤ) : ℚ :=
  if duration > rule.free_duration then
    let payable_duration := duration - rule.free_duration
    if rule.time_unit == "hour" then
      rule.unit_price * ((pyRound ((payable_duration : ℚ) / 60 + 1/2) : ℤ) : ℚ)
    else if rule.time_unit == "half_hour" then
      rule.unit_price * ((pyRound ((payable_duration : ℚ) / 30 + 1/2) : ℤ) : ℚ)
    else
      rule.unit_price * (payable_duration : ℚ)
  else 0

def capFee (rule : FeeRule) (fee : ℚ) : ℚ :=
  match rule.max_daily_fee with
  | some c => if c ≠ 0 ∧ fee > c then c else fee
  | none => fee

def applyDiscount (db : DB) (user_id : Option ℤ) (fee : ℚ) : ℚ :=
  match user_id with
  | none => fee
  | some uid =>
    if uid == 0 then fee
    else
      match db.users.find? (fun u => u.id == uid) with
      | none => fee
      | some user =>
        if user.is_member then
          match db.member_levels.find? (fun l => some l.level_name == user.member_level) with
          | some lvl => fee * lvl.discount_rate
          | none => fee
        else fee

def calculate_fee (db : DB) (vehicle_id : ℤ) (duration : ℤ) (user_id : Option ℤ) :
    Except String ℚ :=
  match db.vehicles.find? (fun v => v.id == vehicle_id) with
  | none => .error "车辆不存在"
  | some vehicle =>
    match resolveRule db vehicle.vehicle_type with
    | none => .error "没有可用的计费规则"
    | some rule =>
      .ok (pyRound2 (applyDiscount db user_id (capFee rule (rawFee rule duration))))

/-! ## Space allocation — `SpaceAllocationAlgorithm`

Faithful translation of `parking_space_management/space_manager.py`.
`allocate_space` issues one query filtering on `status = 'available'`,
`space_type`, and (when a preference is given) `floor`, ordered by
`floor ASC, space_number ASC`; `fetchone` of that ordered query is the
minimum of the filtered rows under the (floor, space_number) key, which
`pickFirst` computes (keeping the earlier row on equal keys).
`release_space` / `reserve_space` / `cancel_reservation` are single
keyed `UPDATE`s. -/

def allocMatches (vehicle_type : String) (preferred_floor : Option ℤ) (s : ParkingSpace) :
    Bool :=
  s.status == "available" && s.space_type == vehicle_type &&
    (match preferred_floor with
     | some f => s.floor == f
     | none => true)

def bytesLt : List Nat → List Nat → Bool
  | [], [] => false
  | [], _ :: _ => true
  | _ :: _, [] => false
  | x :: xs, y :: ys => x < y || (x == y && bytesLt xs ys)

/-- SQLite's default BINARY collation on `TEXT`: byte-wise comparison of the
UTF-8 encodings. -/
def strLt (a b : String) : Bool := bytesLt (strBytes a) (strBytes b)

def keyLt (a b : ParkingSpace) : Bool :=
  a.floor < b.floor || (a.floor == b.floor && strLt a.space_number b.space_number)

def pickFirst : List ParkingSpace → Option ParkingSpace
  | [] => none
  | s :: rest =>
    match pickFirst rest with
    | none => some s
    | some t => if keyLt t s then some t else some s

def allocate_space (now : ℤ) (spaces : List ParkingSpace) (vehicle_type : String)
    (preferred_floor : Option ℤ) : List ParkingSpace × Option ℤ :=
  match pickFirst (spaces.filter (allocMatches vehicle_type preferred_floor)) with
  | some s =>
    (spaces.map (fun r => if r.id == s.id then { r with status := "occupied", updated_at := now } else r),
     some s.id)
  | none => (spaces, none)

def release_space (now : ℤ) (spaces : List ParkingSpace) (space_id : ℤ) :
    List ParkingSpace × Bool :=
  (spaces.map (fun r => if r.id == space_id then { r with status := "available", updated_at := now } else r),
   0 < spaces.countP (fun r => r.id == space_id))

def reserve_space (now : ℤ) (spaces : List ParkingSpace) (space_id : ℤ) (user_id : ℤ) :
    List ParkingSpace × Bool :=
  match spaces.find? (fun r => r.id == space_id) with
  | none => (spaces, false)
  | some space =>
    if space.status != "available" || space.is_reserved then (spaces, false)
    else
      (spaces.map (fun r =>
         if r.id == space_id then
           { r with is_reserved := true, reserved_user_id := some user_id, updated_at := now }
         else r),
       0 < spaces.countP (fun r => r.id == space_id))

/-! ## User management — `UserManager`

Faithful translation of `user_management/user_manager.py`:
`register_user` stores `sha256(password.encode()).hexdigest()` (no
salt), `login` recomputes the same digest from the supplied password
and compares it with the stored one, and `deduct_balance` checks
`amount <= 0`, user existence, and `balance < amount` before the
keyed balance `UPDATE`.  `AUTOINCREMENT` row ids are modelled with the
`next_user_id` counter. -/

/-- The row `register_user` inserts: the password column holds
`hashlib.sha256(password.encode()).hexdigest()` — the digest of the password
alone; the schema has no salt column. -/
def registeredRow (db : DB) (now : ℤ) (username password role : String) : UserRow :=
  { id := db.next_user_id, username := username, password := sha256Hex password,
    role := role, real_name := none, phone := none, email := none,
    is_member := false, member_level := none, member_expiry := none,
    balance := 0, created_at := now, updated_at := now }

def register_user (db : DB) (now : ℤ) (username password role : String) :
    Except String (DB × ℤ) :=
  match db.users.find? (fun u => u.username == username) with
  | some _ => .error "用户已存在"
  | none =>
    .ok ({ db with
            users := db.users ++ [registeredRow db now username password role],
            next_user_id := db.next_user_id + 1 },
          db.next_user_id)

structure LoginResult where
  id : ℤ
  username : String
  role : String
  is_member : Bool
  member_level : Option String
  member_expiry : Option ℤ
deriving DecidableEq

def login (db : DB) (username password : String) : Except String LoginResult :=
  match db.users.find? (fun u => u.username == username) with
  | none => .error "用户不存在"
  | some result =>
    let hashed_password := sha256Hex password
    if result.password != hashed_password then .error "密码错误"
    else
      .ok { id := result.id, username := result.username, role := result.role,
            is_member := result.is_member, member_level := result.member_level,
            member_expiry := result.member_expiry }

inductive DeductError where
  | invalidAmount
  | userNotFound
  | insufficientBalance
deriving DecidableEq

def deduct_balance (db : DB) (now : ℤ) (user_id : ℤ) (amount : ℚ) :
    DB × Except DeductError Unit :=
  if amount ≤ 0 then (db, .error .invalidAmount)
  else
    match db.users.find? (fun u => u.id == user_id) with
    | none => (db, .error .userNotFound)
    | some user =>
      if user.balance < amount then (db, .error .insufficientBalance)
      else
        ({ db with users := db.users.map (fun u =>
             if u.id == user_id then { u with balance := u.balance - amount, updated_at := now }
             else u) },
         .ok ())

/-! ## Auxiliary definitions used to state the claims -/

instance exceptDecEq {ε α : Type} [DecidableEq ε] [DecidableEq α] : DecidableEq (Except ε α)
  | .error e, .error f =>
    if h : e = f then .isTrue (by rw [h]) else .isFalse (by simpa using h)
  | .error _, .ok _ => .isFalse (by simp)
  | .ok _, .error _ => .isFalse (by simp)
  | .ok a, .ok b =>
    if h : a = b then .isTrue (by rw [h]) else .isFalse (by simpa using h)

/-- Whether a fallible operation succeeded. -/
def exceptIsOk {ε α : Type} : Except ε α → Bool
  | .ok _ => true
  | .error _ => false

/-- The fee rule `calculate_fee` resolves for a vehicle id: the active rule of
the vehicle's type, falling back to the default category `"小型车"`. -/
def ruleFor (db : DB) (vehicle_id : ℤ) : Option FeeRule :=
  match db.vehicles.find? (fun v => v.id == vehicle_id) with
  | some v => resolveRule db v.vehicle_type
  | none => none

/-- The multiplier `applyDiscount` ends up using: the resolved member level's
`discount_rate`, or `1` when no discount applies. -/
def discountFactor (db : DB) (user_id : Option ℤ) : ℚ :=
  match user_id with
  | none => 1
  | some uid =>
    if uid == 0 then 1
    else
      match db.users.find? (fun u => u.id == uid) with
      | none => 1
      | some user =>
        if user.is_member then
          match db.member_levels.find? (fun l => some l.level_name == user.member_level) with
          | some lvl => lvl.discount_rate
          | none => 1
        else 1

/-! ## Concrete fixtures for counterexamples and witnesses -/

/-- Hourly rule, 5 per hour, no free duration, no daily cap. -/
def hourRule : FeeRule :=
  { id := 1, rule_name := "小型车计费规则", vehicle_type := "小型车", time_unit := "hour",
    unit_price := 5, free_duration := 0, max_daily_fee := none, is_active := true }

def dbHour : DB :=
  { vehicles := [{ id := 1, plate_number := "京A00001", vehicle_type := "小型车" }],
    fee_rules := [hourRule], users := [], member_levels := [], next_user_id := 1 }

/-- Hourly rule with a negative daily cap (insertable through `add_fee_rule`,
which accepts any `max_daily_fee`). -/
def negCapRule : FeeRule :=
  { id := 1, rule_name := "负上限规则", vehicle_type := "小型车", time_unit := "hour",
    unit_price := 5, free_duration := 30, max_daily_fee := some (-10), is_active := true }

def dbNegCap : DB :=
  { vehicles := [{ id := 1, plate_number := "京A00001", vehicle_type := "小型车" }],
    fee_rules := [negCapRule], users := [], member_levels := [], next_user_id := 1 }

/-- An hourly rule with a negative unit price (insertable through
`add_fee_rule`, which accepts any `unit_price`), 30 free minutes, no cap. -/
def negPriceRule : FeeRule :=
  { id := 1, rule_name := "负价格规则", vehicle_type := "小型车", time_unit := "hour",
    unit_price := -5, free_duration := 30, max_daily_fee := none, is_active := true }

def dbNegPrice : DB :=
  { vehicles := [{ id := 1, plate_number := "京A00001", vehicle_type := "小型车" }],
    fee_rules := [negPriceRule], users := [], member_levels := [], next_user_id := 1 }

/-- The initial small-vehicle rule of `_add_initial_fee_rules`: hourly, 5 per
hour, first 30 minutes free, daily cap 50. -/
def initialRule : FeeRule :=
  { id := 1, rule_name := "小型车计费规则", vehicle_type := "小型车", time_unit := "hour",
    unit_price := 5, free_duration := 30, max_daily_fee := some 50, is_active := true }

/-- A member (`is_member = True`, level 普通会员) whose membership expired at
time 100; nothing ever resets `is_member` on expiry. -/
def expiredMember : UserRow :=
  { id := 2, username := "member1", password := sha256Hex "mmm", role := "user",
    real_name := none, phone := none, email := none, is_member := true,
    member_level := some "普通会员", member_expiry := some 100, balance := 100,
    created_at := 0, updated_at := 0 }

def dbMember : DB :=
  { vehicles := [{ id := 1, plate_number := "京A00001", vehicle_type := "小型车" }],
    fee_rules := [initialRule],
    users := [expiredMember],
    member_levels := [{ level_name := "普通会员", discount_rate := 9/10 }],
    next_user_id := 3 }

/-- An account whose balance has been driven negative (reachable through
`PaymentProcessor.process_payment`, whose balance deduction has no check). -/
def overdrawnUser : UserRow :=
  { id := 1, username := "odu", password := sha256Hex "p", role := "user",
    real_name := none, phone := none, email := none, is_member := false,
    member_level := none, member_expiry := none, balance := -5,
    created_at := 0, updated_at := 0 }

def dbOverdrawn : DB :=
  { vehicles := [], fee_rules := [], users := [overdrawnUser], member_levels := [],
    next_user_id := 2 }

/-- The account of the spec scenario: balance 20. -/
def balance20User : UserRow :=
  { id := 1, username := "u20", password := sha256Hex "p", role := "user",
    real_name := none, phone := none, email := none, is_member := false,
    member_level := none, member_expiry := none, balance := 20,
    created_at := 0, updated_at := 0 }

def dbBalance20 : DB :=
  { vehicles := [], fee_rules := [], users := [balance20User], member_levels := [],
    next_user_id := 2 }

/-- Empty database, as after `connect` and before any registration. -/
def dbEmpty : DB :=
  { vehicles := [], fee_rules := [], users := [], member_levels := [], next_user_id := 1 }

/-- The database after `register_user(dbEmpty, "alice", "pw123", "user")`. -/
def dbAlice : DB :=
  { dbEmpty with
    users := [registeredRow dbEmpty 0 "alice" "pw123" "user"],
    next_user_id := 2 }

/-- An available small-vehicle space on floor 2 (and only there). -/
def floor2Space : ParkingSpace :=
  { id := 1, space_number := "F2-001", floor := 2, space_type := "小型车",
    status := "available", is_reserved := false, reserved_user_id := none, updated_at := 0 }

/-- A freshly added available space, exactly as `add_space` creates it. -/
def freshSpace : ParkingSpace :=
  { id := 1, space_number := "B1-001", floor := -1, space_type := "小型车",
    status := "available", is_reserved := false, reserved_user_id := none, updated_at := 0 }

/-- Two available small-vehicle spaces with distinct ids. -/
def twoSpaces : List ParkingSpace :=
  [{ id := 1, space_number := "B1-001", floor := -1, space_type := "小型车",
     status := "available", is_reserved := false, reserved_user_id := none, updated_at := 0 },
   { id := 2, space_number := "B1-002", floor := -1, space_type := "小型车",
     status := "available", is_reserved := false, reserved_user_id := none, updated_at := 0 }]

/-! ## Lemmas about the rounding and fee pipeline -/

theorem le_pyRound (q : ℚ) : ⌊q⌋ ≤ pyRound q := by
  unfold pyRound
  split_ifs <;> omega

theorem pyRound_le (q : ℚ) : pyRound q ≤ ⌊q⌋ + 1 := by
  unfold pyRound
  split_ifs <;> omega

theorem pyRound_mono {a b : ℚ} (h : a ≤ b) : pyRound a ≤ pyRound b := by
  rcases lt_or_le ⌊a⌋ ⌊b⌋ with hf | hf
  · calc pyRound a ≤ ⌊a⌋ + 1 := pyRound_le a
      _ ≤ ⌊b⌋ := by omega
      _ ≤ pyRound b := le_pyRound b
  · have hfe : ⌊a⌋ = ⌊b⌋ := le_antisymm (Int.floor_le_floor h) hf
    have hr : a - (⌊a⌋ : ℚ) ≤ b - (⌊b⌋ : ℚ) := by
      rw [hfe]
      linarith
    unfold pyRound
    rw [hfe]
    split_ifs <;> first | omega | (exfalso; linarith)

theorem pyRound_nonneg {q : ℚ} (h : 0 ≤ q) : 0 ≤ pyRound q := by
  have := le_pyRound q
  have h0 : (0 : ℤ) ≤ ⌊q⌋ := Int.floor_nonneg.mpr h
  omega

theorem pyRound2_mono {a b : ℚ} (h : a ≤ b) : pyRound2 a ≤ pyRound2 b := by
  unfold pyRound2
  have h100 : a * 100 ≤ b * 100 := by linarith
  have := pyRound_mono h100
  have hc : ((pyRound (a * 100) : ℤ) : ℚ) ≤ ((pyRound (b * 100) : ℤ) : ℚ) := by
    exact_mod_cast this
  linarith

theorem pyRound2_zero : pyRound2 0 = 0 := by
  unfold pyRound2 pyRound
  norm_num

theorem rawFee_nonneg (rule : FeeRule) (d : ℤ) (hp : 0 ≤ rule.unit_price) :
    0 ≤ rawFee rule d := by
  unfold rawFee
  split_ifs with h1 h2 h3
  · refine mul_nonneg hp ?_
    have hz : (0:ℚ) ≤ ((d - rule.free_duration : ℤ) : ℚ) := by
      exact_mod_cast (by omega : (0:ℤ) ≤ d - rule.free_duration)
    exact_mod_cast pyRound_nonneg
      (by linarith : (0:ℚ) ≤ ((d - rule.free_duration : ℤ) : ℚ) / 60 + 1/2)
  · refine mul_nonneg hp ?_
    have hz : (0:ℚ) ≤ ((d - rule.free_duration : ℤ) : ℚ) := by
      exact_mod_cast (by omega : (0:ℤ) ≤ d - rule.free_duration)
    exact_mod_cast pyRound_nonneg
      (by linarith : (0:ℚ) ≤ ((d - rule.free_duration : ℤ) : ℚ) / 30 + 1/2)
  · refine mul_nonneg hp ?_
    exact_mod_cast (by omega : (0:ℤ) ≤ d - rule.free_duration)
  · exact le_refl 0

theorem rawFee_mono (rule : FeeRule) {d1 d2 : ℤ} (hp : 0 ≤ rule.unit_price) (hd : d1 ≤ d2) :
    rawFee rule d1 ≤ rawFee rule d2 := by
  by_cases h1 : d1 > rule.free_duration
  · have h2 : d2 > rule.free_duration := by omega
    unfold rawFee
    rw [if_pos h1, if_pos h2]
    have hpay : ((d1 - rule.free_duration : ℤ) : ℚ) ≤ ((d2 - rule.free_duration : ℤ) : ℚ) := by
      exact_mod_cast sub_le_sub_right hd _
    split_ifs
    · refine mul_le_mul_of_nonneg_left ?_ hp
      exact_mod_cast pyRound_mono (by linarith :
        ((d1 - rule.free_duration : ℤ) : ℚ) / 60 + 1/2 ≤
          ((d2 - rule.free_duration : ℤ) : ℚ) / 60 + 1/2)
    · refine mul_le_mul_of_nonneg_left ?_ hp
      exact_mod_cast pyRound_mono (by linarith :
        ((d1 - rule.free_duration : ℤ) : ℚ) / 30 + 1/2 ≤
          ((d2 - rule.free_duration : ℤ) : ℚ) / 30 + 1/2)
    · exact mul_le_mul_of_nonneg_left hpay hp
  · unfold rawFee
    rw [if_neg h1]
    exact rawFee_nonneg rule d2 hp

theorem capFee_mono (rule : FeeRule) {f1 f2 : ℚ} (h : f1 ≤ f2) :
    capFee rule f1 ≤ capFee rule f2 := by
  unfold capFee
  cases rule.max_daily_fee with
  | none => exact h
  | some c =>
    dsimp only
    by_cases h1 : c ≠ 0 ∧ f1 > c
    · rw [if_pos h1]
      by_cases h2 : c ≠ 0 ∧ f2 > c
      · rw [if_pos h2]
      · rw [if_neg h2]
        push_neg at h2
        linarith [h1.2, h2 h1.1]
    · rw [if_neg h1]
      by_cases h2 : c ≠ 0 ∧ f2 > c
      · rw [if_pos h2]
        push_neg at h1
        exact h1 h2.1
      · rw [if_neg h2]
        exact h

theorem capFee_eq_cap (rule : FeeRule) {c f : ℚ} (hc : rule.max_daily_fee = some c)
    (h0 : c ≠ 0) (hf : c < f) : capFee rule f = c := by
  unfold capFee
  rw [hc]
  dsimp only
  rw [if_pos ⟨h0, hf⟩]

theorem applyDiscount_eq (db : DB) (uid : Option ℤ) (fee : ℚ) :
    applyDiscount db uid fee = fee * discountFactor db uid := by
  unfold applyDiscount discountFactor
  rcases uid with _ | u
  · exact (mul_one fee).symm
  · dsimp only
    by_cases h0 : (u == 0) = true
    · simp [h0]
    · simp only [Bool.not_eq_true] at h0
      rw [h0]
      simp only [if_neg Bool.false_ne_true]
      cases hf : db.users.find? (fun x => x.id == u) with
      | none => exact (mul_one fee).symm
      | some user =>
        dsimp only
        by_cases hm : user.is_member = true
        · rw [if_pos hm, if_pos hm]
          cases hl : db.member_levels.find? (fun l => some l.level_name == user.member_level) with
          | none => exact (mul_one fee).symm
          | some lvl => rfl
        · rw [if_neg hm, if_neg hm]
          exact (mul_one fee).symm

theorem discountFactor_nonneg (db : DB) (uid : Option ℤ)
    (hrate : ∀ l ∈ db.member_levels, 0 ≤ l.discount_rate) :
    0 ≤ discountFactor db uid := by
  unfold discountFactor
  rcases uid with _ | u
  · norm_num
  · dsimp only
    by_cases h0 : (u == 0) = true
    · simp [h0]
    · simp only [Bool.not_eq_true] at h0
      rw [h0]
      simp only [if_neg Bool.false_ne_true]
      cases hf : db.users.find? (fun x => x.id == u) with
      | none => norm_num
      | some user =>
        dsimp only
        by_cases hm : user.is_member = true
        · rw [if_pos hm]
          cases hl : db.member_levels.find? (fun l => some l.level_name == user.member_level) with
          | none => norm_num
          | some lvl => exact hrate lvl (List.mem_of_find?_eq_some hl)
        · rw [if_neg hm]
          norm_num

theorem resolveRule_mem (db : DB) (t : String) (rule : FeeRule)
    (h : resolveRule db t = some rule) : rule ∈ db.fee_rules := by
  unfold resolveRule at h
  cases hf : db.fee_rules.find? (fun r => r.vehicle_type == t && r.is_active) with
  | some r =>
    rw [hf] at h
    injection h with h2
    rw [← h2]
    exact List.mem_of_find?_eq_some hf
  | none =>
    rw [hf] at h
    dsimp only at h
    exact List.mem_of_find?_eq_some h

theorem calc_fee_eq (db : DB) (vid d : ℤ) (uid : Option ℤ) (vehicle : VehicleRow)
    (rule : FeeRule)
    (hv : db.vehicles.find? (fun v => v.id == vid) = some vehicle)
    (hr : resolveRule db vehicle.vehicle_type = some rule) :
    calculate_fee db vid d uid =
      .ok (pyRound2 (capFee rule (rawFee rule d) * discountFactor db uid)) := by
  unfold calculate_fee
  rw [hv]
  dsimp only
  rw [hr]
  dsimp only
  rw [applyDiscount_eq]

theorem calc_fee_ok_inv (db : DB) (vid d : ℤ) (uid : Option ℤ) (f : ℚ)
    (h : calculate_fee db vid d uid = .ok f) :
    ∃ vehicle rule, db.vehicles.find? (fun v => v.id == vid) = some vehicle ∧
      resolveRule db vehicle.vehicle_type = some rule ∧
      f = pyRound2 (capFee rule (rawFee rule d) * discountFactor db uid) := by
  unfold calculate_fee at h
  cases hv : db.vehicles.find? (fun v => v.id == vid) with
  | none =>
    rw [hv] at h
    exact absurd h (by simp)
  | some vehicle =>
    rw [hv] at h
    dsimp only at h
    cases hr : resolveRule db vehicle.vehicle_type with
    | none =>
      rw [hr] at h
      exact absurd h (by simp)
    | some rule =>
      rw [hr] at h
      dsimp only at h
      rw [applyDiscount_eq] at h
      injection h with h2
      exact ⟨vehicle, rule, rfl, hr, h2.symm⟩

/-! ## Lemmas about the space-allocation engine -/

theorem pickFirst_mem : ∀ (l : List ParkingSpace) (s : ParkingSpace),
    pickFirst l = some s → s ∈ l := by
  intro l
  induction l with
  | nil => intro s h; simp [pickFirst] at h
  | cons a rest ih =>
    intro s h
    unfold pickFirst at h
    cases hp : pickFirst rest with
    | none =>
      rw [hp] at h
      dsimp only at h
      injection h with h2
      rw [← h2]
      exact List.mem_cons_self a rest
    | some t =>
      rw [hp] at h
      dsimp only at h
      split at h
      · injection h with h2
        rw [← h2]
        exact List.mem_cons_of_mem a (ih t hp)
      · injection h with h2
        rw [← h2]
        exact List.mem_cons_self a rest

theorem pickFirst_none_iff (l : List ParkingSpace) : pickFirst l = none ↔ l = [] := by
  cases l with
  | nil => simp [pickFirst]
  | cons a rest =>
    constructor
    · intro h
      unfold pickFirst at h
      cases hp : pickFirst rest with
      | none =>
        rw [hp] at h
        exact absurd h (by simp)
      | some t =>
        rw [hp] at h
        dsimp only at h
        split at h <;> exact absurd h (by simp)
    · intro h
      exact absurd h (by simp)

theorem filter_map_comm (g : ParkingSpace → ParkingSpace) (p : ParkingSpace → Bool)
    (l : List ParkingSpace) (h : ∀ r ∈ l, p (g r) = p r) :
    (l.map g).filter p = (l.filter p).map g := by
  induction l with
  | nil => rfl
  | cons a rest ih =>
    have hrest := ih (fun r hr => h r (List.mem_cons_of_mem a hr))
    simp only [List.map_cons, List.filter_cons]
    rw [h a (List.mem_cons_self a rest)]
    cases hpa : p a with
    | true => simp [hrest]
    | false => simp [hrest]

theorem pickFirst_map (g : ParkingSpace → ParkingSpace)
    (hfl : ∀ r, (g r).floor = r.floor)
    (hnum : ∀ r, (g r).space_number = r.space_number)
    (l : List ParkingSpace) :
    pickFirst (l.map g) = (pickFirst l).map g := by
  induction l with
  | nil => rfl
  | cons a rest ih =>
    simp only [List.map_cons]
    unfold pickFirst
    rw [ih]
    cases pickFirst rest with
    | none => rfl
    | some t =>
      have hk : keyLt (g t) (g a) = keyLt t a := by
        unfold keyLt
        rw [hfl, hfl, hnum, hnum]
      simp only [Option.map_some']
      rw [hk]
      cases hkk : keyLt t a <;> simp [hkk]

theorem release_space_status (now : ℤ) (spaces : List ParkingSpace) (sid : ℤ) :
    ∀ r ∈ (release_space now spaces sid).1, r.id = sid → r.status = "available" := by
  intro r hr hid
  unfold release_space at hr
  dsimp only at hr
  obtain ⟨a, ha, rfl⟩ := List.mem_map.mp hr
  by_cases h : (a.id == sid) = true
  · simp only [if_pos h]
  · rw [if_neg h] at hid ⊢
    have hf : (a.id == sid) = false := by simpa using h
    exact absurd hid (ne_of_beq_false hf)

theorem release_space_all_available (now : ℤ) (spaces : List ParkingSpace) (sid : ℤ) :
    ((release_space now spaces sid).1.all
      (fun r => !(r.id == sid) || (r.status == "available"))) = true := by
  rw [List.all_eq_true]
  intro r hr
  by_cases h : (r.id == sid) = true
  · have hst := release_space_status now spaces sid r hr (eq_of_beq h)
    simp [h, hst]
  · have hf : (r.id == sid) = false := by simpa using h
    simp [hf]

theorem release_space_idem (now : ℤ) (spaces : List ParkingSpace) (sid : ℤ) :
    release_space now ((release_space now spaces sid).1) sid =
      release_space now spaces sid := by
  unfold release_space
  dsimp only
  have hfun : ∀ a : ParkingSpace,
      ((if (a.id == sid) = true then
          { a with status := "available", updated_at := now } else a).id == sid) =
      (a.id == sid) := by
    intro a
    by_cases h : (a.id == sid) = true
    · rw [if_pos h]
    · rw [if_neg h]
  refine Prod.ext ?_ ?_
  · rw [List.map_map]
    apply List.map_congr_left
    intro a _
    simp only [Function.comp_apply]
    by_cases h : (a.id == sid) = true
    · rw [if_pos h, if_pos (hfun a ▸ h)]
    · rw [if_neg h, if_neg h]
  · simp only [List.countP_map]
    have hc : List.countP
        ((fun r : ParkingSpace => r.id == sid) ∘ fun r =>
          if (r.id == sid) = true then { r with status := "available", updated_at := now }
          else r)
        spaces
        = List.countP (fun r : ParkingSpace => r.id == sid) spaces :=
      List.countP_congr (fun a _ => by simp only [Function.comp_apply, hfun a])
    rw [hc]

theorem release_after_occupy (now now2 sid : ℤ) (spaces : List ParkingSpace) :
    (release_space now2
      (spaces.map (fun r =>
        if (r.id == sid) = true then { r with status := "occupied", updated_at := now }
        else r))
      sid).1
    = spaces.map (fun r =>
        if (r.id == sid) = true then { r with status := "available", updated_at := now2 }
        else r) := by
  unfold release_space
  dsimp only
  rw [List.map_map]
  apply List.map_congr_left
  intro a _
  simp only [Function.comp_apply]
  by_cases h : (a.id == sid) = true
  · simp only [if_pos h]
  · simp only [if_neg h]

theorem allocate_release_reallocate (now now2 now3 : ℤ) (spaces st1 : List ParkingSpace)
    (aid : ℤ) (vt : String) (pf : Option ℤ)
    (hnodup : (spaces.map ParkingSpace.id).Nodup)
    (halloc : allocate_space now spaces vt pf = (st1, some aid)) :
    (∀ r ∈ (release_space now2 st1 aid).1, r.id = aid → r.status = "available") ∧
    (allocate_space now3 ((release_space now2 st1 aid).1) vt pf).2 = some aid := by
  refine ⟨release_space_status now2 st1 aid, ?_⟩
  unfold allocate_space at halloc
  cases hp : pickFirst (spaces.filter (allocMatches vt pf)) with
  | none =>
    rw [hp] at halloc
    dsimp only at halloc
    injection halloc with h1 h2
    exact absurd h2 (by simp)
  | some s =>
    rw [hp] at halloc
    dsimp only at halloc
    injection halloc with h1 h2
    injection h2 with h2
    subst h2
    subst h1
    have hsmem := pickFirst_mem _ _ hp
    rw [List.mem_filter] at hsmem
    obtain ⟨hsm, hsp⟩ := hsmem
    rw [release_after_occupy now now2 s.id spaces]
    have hpred : ∀ r ∈ spaces,
        allocMatches vt pf (if (r.id == s.id) = true then
          { r with status := "available", updated_at := now2 } else r) =
        allocMatches vt pf r := by
      intro r hr
      by_cases h : (r.id == s.id) = true
      · have hrs : r = s :=
          List.inj_on_of_nodup_map hnodup hr hsm (eq_of_beq h)
        subst hrs
        rw [if_pos h]
        unfold allocMatches at hsp ⊢
        rw [Bool.and_eq_true, Bool.and_eq_true] at hsp
        obtain ⟨⟨hst, hty⟩, hfl⟩ := hsp
        simp [hst]
      · rw [if_neg h]
    have hfl : ∀ r : ParkingSpace,
        ((if (r.id == s.id) = true then
          { r with status := "available", updated_at := now2 } else r) :
          ParkingSpace).floor = r.floor := by
      intro r
      by_cases h : (r.id == s.id) = true <;> simp [h]
    have hnum : ∀ r : ParkingSpace,
        ((if (r.id == s.id) = true then
          { r with status := "available", updated_at := now2 } else r) :
          ParkingSpace).space_number = r.space_number := by
      intro r
      by_cases h : (r.id == s.id) = true <;> simp [h]
    unfold allocate_space
    rw [filter_map_comm _ _ _ hpred, pickFirst_map _ hfl hnum, hp]
    simp

/-! ## Claims -/

section RatEvalC1
attribute [local semireducible] Rat.add Rat.mul Rat.sub Rat.inv Rat.ofScientific

/-- Claim C1: with hour granularity, `calculate_fee` is claimed to charge
`ceil(billable / 60)` units.  At exactly 60 billable minutes (rule: hourly,
5 per unit, no free duration, no cap) the ceiling is 1 unit (fee 5), but the
code's `round(payable/60 + 0.5)` under Python banker's rounding yields 2
units, so the fee is 10 — the code overcharges exact odd multiples of the
unit length, contradicting its own comment (不足1小时按1小时计算). -/
theorem exact_hour_charged_two_units :
    calculate_fee dbHour 1 60 none = .ok 10 ∧
    ⌈((60:ℚ) - 0) / 60⌉ = 1 ∧
    hourRule.unit_price * ((1:ℤ) : ℚ) = 5 ∧ (10 : ℚ) ≠ 5 := by
  decide

end RatEvalC1

/-- Claim C2 (counterexample): a small-vehicle space is available on floor 2
only; `allocate_space` with preferred floor 1 fails even though the same
query without the floor filter succeeds, and a large-vehicle request fails
even though a default-category space is free — there are no retries. -/
theorem allocate_preferred_floor_no_fallback :
    (allocate_space 0 [floor2Space] "小型车" (some 1)).2 = none ∧
    (allocate_space 0 [floor2Space] "小型车" none).2 = some 1 ∧
    (allocate_space 0 [floor2Space] "大型车" none).2 = none := by
  decide

/-- Claim C2 (amended): `allocate_space` issues a single query; it fails
exactly when no available space matches the requested category and (when
given) the preferred floor, and on success it returns the id of a matching
available space — it never retries without the floor filter nor against the
default category. -/
theorem allocate_space_single_query (now : ℤ) (spaces : List ParkingSpace) (vt : String)
    (pf : Option ℤ) :
    ((allocate_space now spaces vt pf).2 = none ↔
      spaces.filter (allocMatches vt pf) = []) ∧
    ∀ st sid, allocate_space now spaces vt pf = (st, some sid) →
      ∃ s ∈ spaces, allocMatches vt pf s = true ∧ s.id = sid := by
  unfold allocate_space
  cases hp : pickFirst (spaces.filter (allocMatches vt pf)) with
  | none =>
    dsimp only
    refine ⟨⟨fun _ => (pickFirst_none_iff _).mp hp, fun _ => rfl⟩, ?_⟩
    intro st sid h
    injection h with h1 h2
    exact absurd h2 (by simp)
  | some s =>
    dsimp only
    constructor
    · constructor
      · intro h
        exact absurd h (by simp)
      · intro h
        rw [h] at hp
        simp [pickFirst] at hp
    · intro st sid h
      injection h with h1 h2
      injection h2 with h3
      have hm := pickFirst_mem _ _ hp
      rw [List.mem_filter] at hm
      exact ⟨s, hm.1, hm.2, h3⟩

/-- Claim C2 (witness): the single-query characterisation evaluated on the
one-space fixture. -/
theorem allocate_space_single_query_witness :
    (allocate_space 0 [floor2Space] "小型车" (some 1)).2 = none ↔
      [floor2Space].filter (allocMatches "小型车" (some 1)) = [] :=
  (allocate_space_single_query 0 [floor2Space] "小型车" (some 1)).1

/-- Claim C3 (counterexample): registering `alice` with password `pw123`
stores `sha256Hex "pw123"` — the digest of the password alone; the users
schema has no salt column, so the stored credential is not a salted hash. -/
theorem register_user_stores_plain_hash :
    register_user dbEmpty 0 "alice" "pw123" "user" = .ok (dbAlice, 1) ∧
    dbAlice.users.map UserRow.password = [sha256Hex "pw123"] :=
  ⟨rfl, rfl⟩

/-- Claim C3 (amended): after a successful registration the stored credential
is the unsalted SHA-256 digest of the password, and `login` succeeds exactly
when the digest of the supplied password equals the digest of the registered
one — verification recomputes `sha256(supplied)` with no salt and compares
digests. -/
theorem credential_unsalted_hash (db : DB) (now : ℤ) (u p q role : String) (db' : DB)
    (uid : ℤ) (hreg : register_user db now u p role = .ok (db', uid)) :
    db'.users.find? (fun x => x.username == u) = some (registeredRow db now u p role) ∧
    (exceptIsOk (login db' u q) = true ↔ sha256Hex q = sha256Hex p) := by
  unfold register_user at hreg
  cases hf : db.users.find? (fun x => x.username == u) with
  | some w =>
    rw [hf] at hreg
    exact absurd hreg (by simp)
  | none =>
    rw [hf] at hreg
    dsimp only at hreg
    injection hreg with hpair
    injection hpair with h1 h2
    subst h1
    have hfind : (db.users ++ [registeredRow db now u p role]).find?
        (fun x => x.username == u) = some (registeredRow db now u p role) := by
      rw [List.find?_append, hf]
      simp [registeredRow]
    refine ⟨hfind, ?_⟩
    unfold login
    rw [hfind]
    dsimp only
    constructor
    · intro hr
      by_cases hb : ((registeredRow db now u p role).password != sha256Hex q) = true
      · rw [if_pos hb] at hr
        simp [exceptIsOk] at hr
      · have heq : sha256Hex p = sha256Hex q := by
          simpa [registeredRow, bne_iff_ne] using hb
        exact heq.symm
    · intro hq
      have hb : ((registeredRow db now u p role).password != sha256Hex q) = false :=
        bne_eq_false_iff_eq.mpr hq.symm
      rw [if_neg (by rw [hb]; simp)]
      rfl

/-- Claim C3 (witness): the amended claim evaluated on the registration of
`alice`. -/
theorem credential_unsalted_hash_witness :
    dbAlice.users.find? (fun x => x.username == "alice") =
      some (registeredRow dbEmpty 0 "alice" "pw123" "user") ∧
    (exceptIsOk (login dbAlice "alice" "pw123") = true ↔
      sha256Hex "pw123" = sha256Hex "pw123") :=
  credential_unsalted_hash dbEmpty 0 "alice" "pw123" "pw123" "user" dbAlice 1 rfl

section RatEvalC4
attribute [local semireducible] Rat.add Rat.mul Rat.sub Rat.inv Rat.ofScientific

/-- Claim C4 (counterexample): the member's tier expired at time 100, yet
`calculate_fee` still multiplies the capped fee 50 by the 0.9 discount and
returns 45 — the code checks only `is_member` and never reads
`member_expiry`, so the "only when non-expired" part of the claim fails. -/
theorem expired_member_still_discounted :
    calculate_fee dbMember 1 750 (some 2) = .ok 45 ∧
    capFee initialRule (rawFee initialRule 750) = 50 ∧
    expiredMember.is_member = true ∧ expiredMember.member_expiry = some 100 ∧
    (45:ℚ) ≠ 50 := by
  decide

end RatEvalC4

/-- Claim C4 (amended): whenever the user exists, is flagged `is_member`, and
the member level resolves — regardless of `member_expiry` — `calculate_fee`
returns the cap-clamped fee multiplied by the level's discount rate: the
discount is applied after the daily cap, not before. -/
theorem discount_applied_after_cap (db : DB) (vid d u : ℤ)
    (vehicle : VehicleRow) (rule : FeeRule) (user : UserRow) (lvl : MemberLevel)
    (hv : db.vehicles.find? (fun v => v.id == vid) = some vehicle)
    (hr : resolveRule db vehicle.vehicle_type = some rule)
    (h0 : (u == 0) = false)
    (hu : db.users.find? (fun x => x.id == u) = some user)
    (hm : user.is_member = true)
    (hl : db.member_levels.find? (fun l => some l.level_name == user.member_level) = some lvl) :
    calculate_fee db vid d (some u) =
      .ok (pyRound2 (capFee rule (rawFee rule d) * lvl.discount_rate)) := by
  rw [calc_fee_eq db vid d (some u) vehicle rule hv hr]
  have hdf : discountFactor db (some u) = lvl.discount_rate := by
    unfold discountFactor
    dsimp only
    rw [h0]
    simp only [if_neg Bool.false_ne_true]
    rw [hu]
    dsimp only
    rw [if_pos hm, hl]
  rw [hdf]

/-- Claim C4 (witness): the after-cap discount equation evaluated on the
expired-member fixture. -/
theorem discount_applied_after_cap_witness :
    calculate_fee dbMember 1 750 (some 2) =
      .ok (pyRound2 (capFee initialRule (rawFee initialRule 750) *
        MemberLevel.discount_rate { level_name := "普通会员", discount_rate := 9/10 })) :=
  discount_applied_after_cap dbMember 1 750 2
    { id := 1, plate_number := "京A00001", vehicle_type := "小型车" } initialRule
    expiredMember { level_name := "普通会员", discount_rate := 9/10 }
    rfl rfl (by decide) rfl rfl rfl

section RatEvalC5cex
attribute [local semireducible] Rat.add Rat.mul Rat.sub Rat.inv Rat.ofScientific

/-- Claim C5 (counterexample): with a fixed rule whose unit price is −5
(insertable through `add_fee_rule`, which validates nothing), `calculate_fee`
is strictly decreasing: fee 0 at 30 minutes but −10 at 90 minutes — the
claim's unconditional monotonicity fails. -/
theorem negative_price_fee_decreasing :
    calculate_fee dbNegPrice 1 30 none = .ok 0 ∧
    calculate_fee dbNegPrice 1 90 none = .ok (-10) ∧
    (30:ℤ) ≤ 90 ∧ ¬ ((0:ℚ) ≤ -10) := by
  decide

end RatEvalC5cex

/-- Claim C5 (amended): for a fixed vehicle, rule set and membership inputs
whose unit prices and discount rates are non-negative, `calculate_fee` is
monotonically non-decreasing in `elapsed_minutes`; and once the raw fee at
the smaller duration already exceeds a non-zero daily cap, the two results
coincide — past the cap the fee is constant. -/
theorem calculate_fee_monotone (db : DB) (vid : ℤ) (uid : Option ℤ) (m1 m2 : ℤ)
    (f1 f2 : ℚ)
    (hprice : ∀ r ∈ db.fee_rules, 0 ≤ r.unit_price)
    (hrate : ∀ l ∈ db.member_levels, 0 ≤ l.discount_rate)
    (hm : m1 ≤ m2)
    (h1 : calculate_fee db vid m1 uid = .ok f1)
    (h2 : calculate_fee db vid m2 uid = .ok f2) :
    f1 ≤ f2 ∧ ∀ rule c, ruleFor db vid = some rule → rule.max_daily_fee = some c →
      c ≠ 0 → c < rawFee rule m1 → f1 = f2 := by
  obtain ⟨v1, r1, hv1, hr1, hf1⟩ := calc_fee_ok_inv _ _ _ _ _ h1
  obtain ⟨v2, r2, hv2, hr2, hf2⟩ := calc_fee_ok_inv _ _ _ _ _ h2
  rw [hv1] at hv2
  injection hv2 with hveq
  rw [← hveq] at hr2
  rw [hr1] at hr2
  injection hr2 with hreq
  rw [← hreq] at hf2
  have hp : 0 ≤ r1.unit_price := hprice r1 (resolveRule_mem _ _ _ hr1)
  have hdf : 0 ≤ discountFactor db uid := discountFactor_nonneg db uid hrate
  constructor
  · rw [hf1, hf2]
    exact pyRound2_mono (mul_le_mul_of_nonneg_right (capFee_mono _ (rawFee_mono _ hp hm)) hdf)
  · intro rule c hrf hcap hc0 hlt
    have hrf1 : ruleFor db vid = some r1 := by
      unfold ruleFor
      rw [hv1]
      exact hr1
    rw [hrf1] at hrf
    injection hrf with hre
    rw [← hre] at hcap hlt
    have hlt2 : c < rawFee r1 m2 := lt_of_lt_of_le hlt (rawFee_mono _ hp hm)
    rw [hf1, hf2, capFee_eq_cap _ hcap hc0 hlt, capFee_eq_cap _ hcap hc0 hlt2]

section RatEvalC5
attribute [local semireducible] Rat.add Rat.mul Rat.sub Rat.inv Rat.ofScientific

/-- Claim C5 (witness): monotonicity and past-the-cap constancy evaluated on
the member fixture at durations 750 and 810 (both capped at 50, fee 45). -/
theorem calculate_fee_monotone_witness : (45:ℚ) ≤ 45 ∧ (45:ℚ) = 45 :=
  ⟨(calculate_fee_monotone dbMember 1 (some 2) 750 810 45 45
      (by decide) (by decide) (by decide) (by decide) (by decide)).1,
   (calculate_fee_monotone dbMember 1 (some 2) 750 810 45 45
      (by decide) (by decide) (by decide) (by decide) (by decide)).2
     initialRule 50 rfl rfl (by decide) (by decide)⟩

end RatEvalC5

section RatEvalC6
attribute [local semireducible] Rat.add Rat.mul Rat.sub Rat.inv Rat.ofScientific

/-- Claim C6 (counterexample): with a (reachable) negative balance of −5, a
requested deduction of −1 exceeds the balance, yet `deduct_balance` fails
with the invalid-amount error (`扣除金额必须大于0`), not with
`InsufficientBalance`. -/
theorem deduct_nonpositive_amount_wrong_error :
    (deduct_balance dbOverdrawn 0 1 (-1)).2 = .error .invalidAmount ∧
    overdrawnUser.balance < -1 ∧
    DeductError.invalidAmount ≠ DeductError.insufficientBalance := by
  decide

end RatEvalC6

/-- Claim C6 (amended): for a positive requested amount exceeding the balance,
`deduct_balance` fails with `InsufficientBalance` and leaves the database —
in particular the balance — unchanged; a successful deduction subtracts the
amount, and the resulting balance is never negative. -/
theorem deduct_balance_props (db : DB) (now uid : ℤ) (amount : ℚ) (user : UserRow)
    (hu : db.users.find? (fun x => x.id == uid) = some user) :
    (0 < amount → user.balance < amount →
      deduct_balance db now uid amount = (db, .error .insufficientBalance)) ∧
    (0 < amount → amount ≤ user.balance →
      (deduct_balance db now uid amount).1.users.find? (fun x => x.id == uid) =
        some { user with balance := user.balance - amount, updated_at := now } ∧
      (deduct_balance db now uid amount).2 = .ok () ∧
      0 ≤ user.balance - amount) := by
  constructor
  · intro ha hb
    unfold deduct_balance
    rw [if_neg (by linarith : ¬ amount ≤ 0), hu]
    dsimp only
    rw [if_pos hb]
  · intro ha hb
    unfold deduct_balance
    rw [if_neg (by linarith : ¬ amount ≤ 0), hu]
    dsimp only
    rw [if_neg (not_lt.mpr hb)]
    refine ⟨?_, rfl, by linarith⟩
    dsimp only
    rw [List.find?_map]
    have hpf : ((fun x : UserRow => x.id == uid) ∘ (fun x : UserRow =>
        if (x.id == uid) = true then { x with balance := x.balance - amount, updated_at := now }
        else x)) = fun x : UserRow => x.id == uid := by
      funext x
      by_cases hx : (x.id == uid) = true <;> simp [Function.comp, hx]
    rw [hpf, hu]
    simp only [Option.map_some']
    rw [if_pos (List.find?_some hu)]

section RatEvalC6w
attribute [local semireducible] Rat.add Rat.mul Rat.sub Rat.inv Rat.ofScientific

/-- Claim C6 (witness): the spec scenario — balance 20, deduction 25 — fails
with `InsufficientBalance` and the state is unchanged. -/
theorem deduct_balance_props_witness :
    deduct_balance dbBalance20 9 1 25 = (dbBalance20, .error .insufficientBalance) :=
  (deduct_balance_props dbBalance20 9 1 25 balance20User rfl).1 (by decide) (by decide)

end RatEvalC6w

section RatEvalC7
attribute [local semireducible] Rat.add Rat.mul Rat.sub Rat.inv Rat.ofScientific

/-- Claim C7 (counterexample): with a rule whose daily cap is −10 (accepted by
`add_fee_rule`), a duration of 0 — within the free window of 30 minutes —
yields fee −10 rather than 0: the truthy negative cap clamps the zero fee
downwards. -/
theorem negative_cap_fee_nonzero :
    calculate_fee dbNegCap 1 0 none = .ok (-10) ∧
    (0:ℤ) ≤ negCapRule.free_duration ∧
    (-10 : ℚ) ≠ 0 := by
  decide

end RatEvalC7

/-- Claim C7 (amended): for a resolvable rule whose daily cap (when present)
is non-negative, every duration up to the free window — including zero and
negative durations — yields fee 0, and `calculate_fee` succeeds for every
duration (its only failure conditions are a missing vehicle and an
unresolvable rule). -/
theorem calculate_fee_free_window (db : DB) (vid d : ℤ) (uid : Option ℤ)
    (vehicle : VehicleRow) (rule : FeeRule)
    (hv : db.vehicles.find? (fun v => v.id == vid) = some vehicle)
    (hr : resolveRule db vehicle.vehicle_type = some rule)
    (hcap : 0 ≤ rule.max_daily_fee.getD 0)
    (hd : d ≤ rule.free_duration) :
    calculate_fee db vid d uid = .ok 0 ∧
    ∀ d', exceptIsOk (calculate_fee db vid d' uid) = true := by
  constructor
  · rw [calc_fee_eq db vid d uid vehicle rule hv hr]
    have hraw : rawFee rule d = 0 := by
      unfold rawFee
      rw [if_neg (by omega)]
    rw [hraw]
    have hcap0 : capFee rule 0 = 0 := by
      unfold capFee
      cases hc : rule.max_daily_fee with
      | none => rfl
      | some c =>
        dsimp only
        rw [if_neg]
        rintro ⟨hne, hgt⟩
        rw [hc] at hcap
        simp only [Option.getD_some] at hcap
        linarith
    rw [hcap0, zero_mul, pyRound2_zero]
  · intro d'
    rw [calc_fee_eq db vid d' uid vehicle rule hv hr]
    rfl

section RatEvalC7w
attribute [local semireducible] Rat.add Rat.mul Rat.sub Rat.inv Rat.ofScientific

/-- Claim C7 (witness): the free-window property evaluated on the initial
small-vehicle rule (30 free minutes, cap 50) at duration 20, plus totality at
duration 999. -/
theorem calculate_fee_free_window_witness :
    calculate_fee dbMember 1 20 none = .ok 0 ∧
    exceptIsOk (calculate_fee dbMember 1 999 none) = true :=
  ⟨(calculate_fee_free_window dbMember 1 20 none
      { id := 1, plate_number := "京A00001", vehicle_type := "小型车" } initialRule
      rfl rfl (by decide) (by decide)).1,
   (calculate_fee_free_window dbMember 1 20 none
      { id := 1, plate_number := "京A00001", vehicle_type := "小型车" } initialRule
      rfl rfl (by decide) (by decide)).2 999⟩

end RatEvalC7w

/-- Claim C8: `release_space` sets every row matching the id to `available`
(in any state), a second release leaves the state literally identical
(idempotence), and after `allocate_space` picks a space, releasing it makes
it available again and an identical allocation request — same category, same
floor preference, same tie-break — picks the same space again. -/
theorem release_space_props (now now2 now3 : ℤ) (spaces st1 : List ParkingSpace)
    (sid aid : ℤ) (vt : String) (pf : Option ℤ)
    (hnodup : (spaces.map ParkingSpace.id).Nodup)
    (halloc : allocate_space now spaces vt pf = (st1, some aid)) :
    ((release_space now2 spaces sid).1.all
      (fun r => !(r.id == sid) || (r.status == "available"))) = true ∧
    release_space now2 ((release_space now2 spaces sid).1) sid =
      release_space now2 spaces sid ∧
    ((release_space now2 st1 aid).1.all
      (fun r => !(r.id == aid) || (r.status == "available"))) = true ∧
    (allocate_space now3 ((release_space now2 st1 aid).1) vt pf).2 = some aid :=
  ⟨release_space_all_available now2 spaces sid, release_space_idem now2 spaces sid,
   release_space_all_available now2 st1 aid,
   (allocate_release_reallocate now now2 now3 spaces st1 aid vt pf hnodup halloc).2⟩

/-- Claim C8 (witness): release/idempotence/round-trip evaluated on the
two-space fixture, where allocation picks space 1. -/
theorem release_space_props_witness :
    ((release_space 5 twoSpaces 1).1.all
      (fun r => !(r.id == 1) || (r.status == "available"))) = true ∧
    release_space 5 ((release_space 5 twoSpaces 1).1) 1 = release_space 5 twoSpaces 1 ∧
    ((release_space 5 (allocate_space 4 twoSpaces "小型车" none).1 1).1.all
      (fun r => !(r.id == 1) || (r.status == "available"))) = true ∧
    (allocate_space 6 ((release_space 5 (allocate_space 4 twoSpaces "小型车" none).1 1).1)
      "小型车" none).2 = some 1 :=
  release_space_props 4 5 6 twoSpaces (allocate_space 4 twoSpaces "小型车" none).1 1 1
    "小型车" none (by decide) (by decide)

/-- Claim C9: `reserve_space` sets the reservation flag for user 7 without
changing `status`, and the allocation query — which filters only on
`status = 'available'` and the category, never on `is_reserved` — then hands
that same reserved space to an unrelated request and marks it occupied. -/
theorem reserved_space_taken_by_allocate :
    (reserve_space 1 [freshSpace] 1 7).2 = true ∧
    (allocate_space 2 (reserve_space 1 [freshSpace] 1 7).1 "小型车" none).2 = some 1 ∧
    ((allocate_space 2 (reserve_space 1 [freshSpace] 1 7).1 "小型车" none).1.all
      (fun r => r.status == "occupied" && r.is_reserved && r.reserved_user_id == some 7))
      = true := by
  decide

/-- Claim C10: `release_space` rewrites only the `status` and `updated_at`
columns of the rows matching the id and leaves every other row untouched; in
particular `is_reserved`, `reserved_user_id`, and all identifying columns of
every row are preserved, so a reservation flag set before a release is still
set afterwards. -/
theorem release_space_frame (now : ℤ) (spaces : List ParkingSpace) (sid : ℤ) :
    List.Forall₂ (fun r' r : ParkingSpace =>
        r'.id = r.id ∧ r'.space_number = r.space_number ∧ r'.floor = r.floor ∧
        r'.space_type = r.space_type ∧ r'.is_reserved = r.is_reserved ∧
        r'.reserved_user_id = r.reserved_user_id ∧
        (r.id ≠ sid → r' = r) ∧
        (r.id = sid → r'.status = "available" ∧ r'.updated_at = now))
      (release_space now spaces sid).1 spaces := by
  unfold release_space
  dsimp only
  induction spaces with
  | nil => exact List.Forall₂.nil
  | cons a rest ih =>
    simp only [List.map_cons]
    refine List.Forall₂.cons ?_ ih
    by_cases h : (a.id == sid) = true
    · rw [if_pos h]
      exact ⟨rfl, rfl, rfl, rfl, rfl, rfl,
        fun hne => absurd (eq_of_beq h) hne, fun _ => ⟨rfl, rfl⟩⟩
    · rw [if_neg h]
      have hne : a.id ≠ sid := ne_of_beq_false (by simpa using h)
      exact ⟨rfl, rfl, rfl, rfl, rfl, rfl, fun _ => rfl, fun heq => absurd heq hne⟩

end Parking
